import Mathlib

/-!
Verification of the rule-compilation and text-sanitization engine of
`clipboard_sanitizer` (`src/sanitizer.py`, class `Sanitizer`).

The engine compiles a user-supplied rule list into an ordered list of
`(compiled_matcher, placeholder)` pairs (`update_rules`) and rewrites
clipboard text by applying the pairs sequentially (`sanitize`).

The Python `re` library is modelled for the fragment the engine's contract
exercises: patterns made of plain literal characters compile (to the list of
their characters plus the flag set), patterns containing regex
metacharacters are outside the modelled fragment and fail to compile
(matching `re.error` on genuinely invalid patterns such as `"("`);
substitution is global, leftmost, non-overlapping, case-insensitive when the
IGNORECASE flag is set; a replacement template containing a reference to a
nonexistent capture group (`\1` on a group-less pattern) raises at
substitution time, modelled as `none`.  Python exceptions are modelled with
`Option` (per-step) and `Except` (whole pass); Python values that may reach
`sanitize` are modelled by `PyVal` (a string, or a non-string object with a
truthiness and an optional `str()` coercion); the dynamic argument of
`update_rules` is modelled by `RulesArg` (a list, a tuple, or some other
non-sequence value, each element a dict-like rule record or not).
-/

namespace ClipboardSanitizer

/-- Regex compilation flags; `re.IGNORECASE` and `re.MULTILINE` are the two
the engine can set (`sanitizer.py` line 36). -/
structure Flags where
  ignorecase : Bool
  multiline : Bool
deriving DecidableEq

/-- Characters with a special meaning in regex syntax.  Patterns containing
any of them lie outside the literal fragment modelled here. -/
def metaChars : List Char :=
  ['(', ')', '[', ']', '?', '*', '+', '$', '^', '|', '.', '\\',
   Char.ofNat 123, Char.ofNat 125]

/-- A compiled pattern: the literal characters to match and the flags it was
compiled with.  Models the result of `re.compile` on the literal fragment. -/
structure CompiledRegex where
  lits : List Char
  flags : Flags
deriving DecidableEq

/-- Model of `re.compile(pattern, flags)`: a pattern of plain literal
characters compiles to those characters; a pattern containing a regex
metacharacter is outside the modelled fragment and yields `none`
(in particular the invalid pattern `"("` fails, as `re.error` does). -/
def reCompile (pat : String) (fl : Flags) : Option CompiledRegex :=
  if pat.toList.all (fun c => !(metaChars.contains c)) then
    some ⟨pat.toList, fl⟩
  else
    none

/-- Single-character match under the compiled flags: case-folded comparison
when IGNORECASE is set, plain equality otherwise. -/
def charMatches (fl : Flags) (p c : Char) : Bool :=
  if fl.ignorecase then p.toLower == c.toLower else p == c

/-- Whether the literal pattern matches at the front of the text. -/
def matchesAt (fl : Flags) : List Char → List Char → Bool
  | [], _ => true
  | _ :: _, [] => false
  | p :: ps, c :: cs => charMatches fl p c && matchesAt fl ps cs

/-- Global leftmost non-overlapping substitution over the text, with fuel
bounding the number of scanning steps (each step consumes at least one
character, so fuel equal to the text length suffices). -/
def subAllGo (fl : Flags) (lits repl : List Char) : Nat → List Char → List Char
  | 0, s => s
  | _, [] => []
  | fuel + 1, c :: cs =>
    if !lits.isEmpty && matchesAt fl lits (c :: cs) then
      repl ++ subAllGo fl lits repl fuel (List.drop (lits.length - 1) cs)
    else
      c :: subAllGo fl lits repl fuel cs

/-- Global substitution of the literal pattern by the replacement text. -/
def subAll (fl : Flags) (lits repl s : List Char) : List Char :=
  subAllGo fl lits repl s.length s

/-- Whether a replacement template refers to a capture group (`\1` .. `\9`).
The modelled literal patterns define no groups, so such a reference is
invalid and makes `sub` raise `re.error: invalid group reference`. -/
def hasBadGroupRef : List Char → Bool
  | [] => false
  | '\\' :: c :: rest => (c.isDigit && c != '0') || hasBadGroupRef rest
  | _ :: rest => hasBadGroupRef rest

/-- Model of `regex.sub(repl, s)`: `none` models a raised exception (the
replacement template references a capture group the group-less literal
pattern does not have); otherwise every match is replaced globally. -/
def reSub (r : CompiledRegex) (repl : String) (s : String) : Option String :=
  if hasBadGroupRef repl.toList then
    none
  else
    some (String.mk (subAll r.flags r.lits repl.toList s.toList))

/-- A dict-shaped rule record; each field is `none` when the key is absent
(`rule.get` supplies the default in `update_rules`). -/
structure Rule where
  name : Option String := none
  pattern : Option String := none
  placeholder : Option String := none
  enabled : Option Bool := none
deriving DecidableEq

/-- An element of the rule list: a dict (rule record) or any other value
(skipped by the `isinstance(rule, dict)` guard). -/
inductive RuleItem where
  | rule : Rule → RuleItem
  | notDict : RuleItem
deriving DecidableEq

/-- The dynamic argument of `update_rules`: a Python list, a tuple, or any
other non-sequence value.  Only a list passes `isinstance(rules, list)`. -/
inductive RulesArg where
  | pylist : List RuleItem → RulesArg
  | pytuple : List RuleItem → RulesArg
  | notSeq : RulesArg
deriving DecidableEq

/-- The flag set every rule is compiled with:
`re.IGNORECASE | re.MULTILINE` (`sanitizer.py` line 36). -/
def pyFlags : Flags := ⟨true, true⟩

/-- One iteration of the `update_rules` loop body: the compiled pair the
item contributes, or `none` when the item is skipped (not a dict, disabled,
empty pattern, or pattern failing to compile — `re.error` and any other
exception are swallowed by `except: pass`). -/
def compileRule? (item : RuleItem) : Option (CompiledRegex × String) :=
  match item with
  | .notDict => none
  | .rule r =>
    if !(r.enabled.getD true) then
      none
    else
      let pattern := r.pattern.getD ""
      let placeholder := r.placeholder.getD "[REDACTED]"
      if pattern = "" then
        none
      else
        match reCompile pattern pyFlags with
        | some regex => some (regex, placeholder)
        | none => none

/-- The `update_rules` loop: walk the items in order, appending each
successfully compiled pair to the accumulator (`self.compiled.append`). -/
def compileLoop (acc : List (CompiledRegex × String)) :
    List RuleItem → List (CompiledRegex × String)
  | [] => acc
  | item :: rest =>
    match compileRule? item with
    | some pair => compileLoop (acc ++ [pair]) rest
    | none => compileLoop acc rest

/-- `Sanitizer.update_rules`: clear the previous compiled set
(`self.compiled.clear()`), return early if the argument is not a list
(`isinstance(rules, list)`), otherwise rebuild from scratch.  `old` is the
compiled set held before the call; the result is the set held after. -/
def update_rules (old : List (CompiledRegex × String)) (rules : RulesArg) :
    List (CompiledRegex × String) :=
  let cleared : List (CompiledRegex × String) := []
  match rules with
  | .pylist items => compileLoop cleared items
  | .pytuple _ => cleared
  | .notSeq => cleared

/-- A Python value reaching `sanitize`: a string, or a non-string object
carrying its truthiness and the result of `str()` on it (`none` when the
coercion itself raises). -/
inductive PyVal where
  | str : String → PyVal
  | obj : Bool → Option String → PyVal
deriving DecidableEq

/-- Python `not text`: the empty string and falsy objects are falsy. -/
def pyNot : PyVal → Bool
  | .str s => s.isEmpty
  | .obj truthy _ => !truthy

/-- Whether a `PyVal` is a string. -/
def PyVal.isStr : PyVal → Bool
  | .str _ => true
  | .obj _ _ => false

/-- The `for regex, placeholder in self.compiled` loop inside the outer
`try`: each substitution is attempted under its own `try`; a raised
substitution (`none`) is swallowed by `except Exception: continue`, leaving
`result` as it stood.  The `Except` layer models the outer handler: an
error value would be an exception escaping the per-rule handling. -/
def runPass : List (CompiledRegex × String) → String → Except Unit String
  | [], result => .ok result
  | (regex, placeholder) :: rest, result =>
    match reSub regex placeholder result with
    | some r => runPass rest r
    | none => runPass rest result

/-- The total denotation of the rule pass: the text after applying the
compiled pairs in order, a failed pair leaving the text unchanged. -/
def applyRules : List (CompiledRegex × String) → String → String
  | [], result => result
  | (regex, placeholder) :: rest, result =>
    match reSub regex placeholder result with
    | some r => applyRules rest r
    | none => applyRules rest result

/-- The string branch of `Sanitizer.sanitize`: run the pass under the outer
`try`; an exception escaping it would return the whole-pass sentinel. -/
def sanitizeStr (compiled : List (CompiledRegex × String)) (text : String) :
    String :=
  match runPass compiled text with
  | .ok r => r
  | .error _ => "[ERROR: Sanitization failed]"

/-- `Sanitizer.sanitize`: falsy input is returned unchanged; a non-string is
coerced with `str()` (the invalid-input sentinel when the coercion raises);
the resulting text goes through the rule pass. -/
def sanitize (compiled : List (CompiledRegex × String)) (text : PyVal) :
    PyVal :=
  if pyNot text then
    text
  else
    match text with
    | .str s => .str (sanitizeStr compiled s)
    | .obj _ (some s) => .str (sanitizeStr compiled s)
    | .obj _ none => .str "[ERROR: Invalid input]"

/-- Whether a rule-list element is a rule record explicitly carrying
`enabled == false`. -/
def ruleDisabled : RuleItem → Bool
  | .rule r => r.enabled == some false
  | .notDict => false

theorem runPass_eq_ok (l : List (CompiledRegex × String)) :
    ∀ s, runPass l s = Except.ok (applyRules l s) := by
  induction l with
  | nil => intro s; rfl
  | cons p rest ih =>
    intro s
    obtain ⟨regex, placeholder⟩ := p
    simp only [runPass, applyRules]
    cases reSub regex placeholder s with
    | none => exact ih s
    | some r => exact ih r

theorem sanitizeStr_eq_applyRules (l : List (CompiledRegex × String))
    (s : String) : sanitizeStr l s = applyRules l s := by
  simp [sanitizeStr, runPass_eq_ok]

theorem compileLoop_eq (items : List RuleItem) :
    ∀ acc, compileLoop acc items = acc ++ items.filterMap compileRule? := by
  induction items with
  | nil => intro acc; simp [compileLoop]
  | cons item rest ih =>
    intro acc
    cases h : compileRule? item with
    | none => simp [compileLoop, h, ih]
    | some pair => simp [compileLoop, h, ih]

theorem sanitize_nil_str (s : String) : sanitize [] (.str s) = .str s := by
  by_cases h : s.isEmpty <;> simp [sanitize, pyNot, h, sanitizeStr, runPass]

theorem compileRule?_of_disabled (i : RuleItem) (h : ruleDisabled i = true) :
    compileRule? i = none := by
  cases i with
  | notDict => simp [ruleDisabled] at h
  | rule r =>
    simp only [ruleDisabled, beq_iff_eq] at h
    simp [compileRule?, h]

theorem reCompile_flags (pat : String) (fl : Flags) (r : CompiledRegex)
    (h : reCompile pat fl = some r) : r.flags = fl := by
  unfold reCompile at h
  split at h
  · cases h; rfl
  · cases h

theorem compileRule?_flags (i : RuleItem) (p : CompiledRegex × String)
    (h : compileRule? i = some p) : p.1.flags = pyFlags := by
  cases i with
  | notDict => cases h
  | rule r =>
    simp only [compileRule?] at h
    by_cases he : (!(r.enabled.getD true)) = true
    · rw [if_pos he] at h; cases h
    · rw [if_neg he] at h
      by_cases hp : r.pattern.getD "" = ""
      · rw [if_pos hp] at h; cases h
      · rw [if_neg hp] at h
        cases hc : reCompile (r.pattern.getD "") pyFlags with
        | none => rw [hc] at h; cases h
        | some regex =>
          rw [hc] at h
          cases h
          exact reCompile_flags _ _ _ hc

theorem applyRules_failed_skip (post : List (CompiledRegex × String))
    (regex : CompiledRegex) (placeholder : String) :
    ∀ (pre : List (CompiledRegex × String)) (s : String),
      reSub regex placeholder (applyRules pre s) = none →
      applyRules (pre ++ (regex, placeholder) :: post) s =
        applyRules (pre ++ post) s := by
  intro pre
  induction pre with
  | nil =>
    intro s h
    simp only [applyRules] at h
    simp [applyRules, h]
  | cons a pre ih =>
    intro s h
    obtain ⟨r0, p0⟩ := a
    simp only [applyRules, List.cons_append] at h ⊢
    cases hr : reSub r0 p0 s with
    | some r => rw [hr] at h; exact ih r h
    | none => rw [hr] at h; exact ih s h

/-- C1: rules are applied sequentially, each substitution operating on the
output of the previous one: with `"a" → "X"` before `"X" → "Y"`,
`sanitize "a"` is `"Y"`, and with the two rules reversed it is `"X"`. -/
theorem rules_applied_sequentially :
    sanitize (update_rules [] (.pylist
        [.rule { pattern := some "a", placeholder := some "X" },
         .rule { pattern := some "X", placeholder := some "Y" }]))
      (.str "a") = .str "Y" ∧
    sanitize (update_rules [] (.pylist
        [.rule { pattern := some "X", placeholder := some "Y" },
         .rule { pattern := some "a", placeholder := some "X" }]))
      (.str "a") = .str "X" := by
  decide

/-- C2: per-rule fault isolation — a rule whose substitution raises is
skipped, processing continues with the next rule on the text exactly as it
stood before the failed rule, and the pass behaves as if that rule were
absent. -/
theorem failed_rule_skipped (pre post : List (CompiledRegex × String))
    (regex : CompiledRegex) (placeholder s : String)
    (h : reSub regex placeholder (applyRules pre s) = none) :
    sanitizeStr (pre ++ (regex, placeholder) :: post) s =
      sanitizeStr (pre ++ post) s := by
  rw [sanitizeStr_eq_applyRules, sanitizeStr_eq_applyRules]
  exact applyRules_failed_skip post regex placeholder pre s h

/-- Witness for C2 at a concrete input: the rule `("a", "\1")` raises at
substitution time (invalid group reference) and is skipped. -/
theorem failed_rule_skipped_witness :
    reSub ⟨['a'], pyFlags⟩ "\\1" (applyRules [] "ab") = none ∧
    sanitizeStr ([] ++ ((⟨['a'], pyFlags⟩ : CompiledRegex), "\\1") ::
        [((⟨['b'], pyFlags⟩ : CompiledRegex), "Y")]) "ab" =
      sanitizeStr ([] ++ [((⟨['b'], pyFlags⟩ : CompiledRegex), "Y")]) "ab" :=
  ⟨by decide,
   failed_rule_skipped [] [(⟨['b'], pyFlags⟩, "Y")] ⟨['a'], pyFlags⟩ "\\1"
     "ab" (by decide)⟩

/-- C3: a rule whose pattern fails to compile is silently omitted without
aborting compilation of the remaining rules; in particular with the rule
list `[{pattern: "(", placeholder: "Z"}, {pattern: "b", placeholder: "Y"}]`
only the second rule is compiled and `sanitize "b"` is `"Y"`. -/
theorem invalid_pattern_isolated :
    (∀ (r : Rule) (rest : List RuleItem)
        (acc : List (CompiledRegex × String)),
      reCompile (r.pattern.getD "") pyFlags = none →
      compileLoop acc (.rule r :: rest) = compileLoop acc rest) ∧
    update_rules [] (.pylist
        [.rule { pattern := some "(", placeholder := some "Z" },
         .rule { pattern := some "b", placeholder := some "Y" }]) =
      [(⟨['b'], pyFlags⟩, "Y")] ∧
    sanitize (update_rules [] (.pylist
        [.rule { pattern := some "(", placeholder := some "Z" },
         .rule { pattern := some "b", placeholder := some "Y" }]))
      (.str "b") = .str "Y" := by
  refine ⟨?_, by decide, by decide⟩
  intro r rest acc h
  have hc : compileRule? (.rule r) = none := by
    simp only [compileRule?]
    by_cases he : (!(r.enabled.getD true)) = true
    · rw [if_pos he]
    · rw [if_neg he]
      by_cases hp : r.pattern.getD "" = ""
      · rw [if_pos hp]
      · rw [if_neg hp, h]
  simp [compileLoop, hc]

/-- Witness for C3's general part at the concrete invalid pattern `"("`. -/
theorem invalid_pattern_isolated_witness :
    reCompile (({ pattern := some "(", placeholder := some "Z" } :
        Rule).pattern.getD "") pyFlags = none ∧
    compileLoop []
        [.rule { pattern := some "(", placeholder := some "Z" },
         .rule { pattern := some "b", placeholder := some "Y" }] =
      compileLoop [] [.rule { pattern := some "b", placeholder := some "Y" }] :=
  ⟨by decide,
   invalid_pattern_isolated.1 { pattern := some "(", placeholder := some "Z" }
     [.rule { pattern := some "b", placeholder := some "Y" }] [] (by decide)⟩

/-- C4 counterexample: a tuple is an ordered sequence of rule records, yet
its enabled, valid rule is not compiled — `isinstance(rules, list)` rejects
tuples, so the engine degrades to the empty set and `sanitize "b"` stays
`"b"` instead of `"Y"`. -/
theorem tuple_rules_not_compiled :
    update_rules [] (.pytuple
        [.rule { pattern := some "b", placeholder := some "Y" }]) = [] ∧
    update_rules [] (.pylist
        [.rule { pattern := some "b", placeholder := some "Y" }]) ≠ [] ∧
    sanitize (update_rules [] (.pytuple
        [.rule { pattern := some "b", placeholder := some "Y" }]))
      (.str "b") = .str "b" := by
  refine ⟨rfl, by decide, by decide⟩

/-- C4 amended: `update_rules` accepts any value; any argument that is not a
Python list — tuples included — degrades silently to the empty compiled set
(and `sanitize` is the identity on strings), while every list of rule
records has its enabled, valid rules compiled in order. -/
theorem update_rules_list_or_empty :
    (∀ (old : List (CompiledRegex × String)) (items : List RuleItem),
      update_rules old (.pylist items) = items.filterMap compileRule?) ∧
    (∀ (old : List (CompiledRegex × String)) (items : List RuleItem),
      update_rules old (.pytuple items) = []) ∧
    (∀ old : List (CompiledRegex × String), update_rules old .notSeq = []) ∧
    (∀ s : String, sanitize [] (.str s) = .str s) := by
  refine ⟨?_, fun _ _ => rfl, fun _ => rfl, sanitize_nil_str⟩
  intro old items
  simpa using compileLoop_eq items []

/-- C5 counterexample: a rule whose `placeholder` is present but empty uses
the empty string, not `"[REDACTED]"` — matches are deleted. -/
theorem empty_placeholder_kept :
    sanitize (update_rules [] (.pylist
        [.rule { pattern := some "a", placeholder := some "" }]))
      (.str "a") = .str "" ∧
    sanitize (update_rules [] (.pylist
        [.rule { pattern := some "a", placeholder := some "" }]))
      (.str "a") ≠ .str "[REDACTED]" := by
  decide

/-- C5 amended: the default placeholder `"[REDACTED]"` is used exactly when
the `placeholder` field is absent; a present empty-string placeholder is
used as-is.  Sanitizing a matching input with a placeholder-less rule
substitutes `"[REDACTED]"` for every match. -/
theorem placeholder_default_when_absent :
    (∀ (r : Rule) (regex : CompiledRegex) (pl : String),
      r.placeholder = none →
      compileRule? (.rule r) = some (regex, pl) → pl = "[REDACTED]") ∧
    sanitize (update_rules [] (.pylist [.rule { pattern := some "a" }]))
      (.str "a") = .str "[REDACTED]" := by
  refine ⟨?_, by decide⟩
  intro r regex pl hnone h
  simp only [compileRule?, hnone, Option.getD_none] at h
  by_cases he : (!(r.enabled.getD true)) = true
  · rw [if_pos he] at h; cases h
  · rw [if_neg he] at h
    by_cases hp : r.pattern.getD "" = ""
    · rw [if_pos hp] at h; cases h
    · rw [if_neg hp] at h
      cases hc : reCompile (r.pattern.getD "") pyFlags with
      | none => rw [hc] at h; cases h
      | some regex2 => rw [hc] at h; cases h; rfl

/-- Witness for C5's general part at a concrete placeholder-less rule. -/
theorem placeholder_default_when_absent_witness :
    ({ pattern := some "a" } : Rule).placeholder = none ∧
    compileRule? (.rule { pattern := some "a" }) =
      some (⟨['a'], pyFlags⟩, "[REDACTED]") ∧
    ("[REDACTED]" : String) = "[REDACTED]" :=
  ⟨rfl, by decide,
   placeholder_default_when_absent.1 { pattern := some "a" }
     ⟨['a'], pyFlags⟩ "[REDACTED]" rfl (by decide)⟩

/-- C6: with an empty compiled rule set `sanitize` is the identity on every
string, and a rule list in which every rule carries `enabled == false`
compiles to the empty set, so `sanitize` is again the identity. -/
theorem empty_or_disabled_identity :
    (∀ s : String, sanitize [] (.str s) = .str s) ∧
    (∀ items : List RuleItem, items.all ruleDisabled = true →
      ∀ s : String,
        sanitize (update_rules [] (.pylist items)) (.str s) = .str s) := by
  refine ⟨sanitize_nil_str, ?_⟩
  intro items hall s
  have hfm : items.filterMap compileRule? = [] := by
    rw [List.filterMap_eq_nil_iff]
    intro a ha
    refine compileRule?_of_disabled a ?_
    rw [List.all_eq_true] at hall
    exact hall a ha
  have hnil : update_rules [] (.pylist items) = [] := by
    show compileLoop [] items = []
    rw [compileLoop_eq items [], hfm]
    rfl
  rw [hnil]
  exact sanitize_nil_str s

/-- Witness for C6's all-disabled part at a concrete one-rule list. -/
theorem empty_or_disabled_identity_witness :
    ([RuleItem.rule { pattern := some "a", placeholder := some "X", enabled := some false }].all ruleDisabled) = true ∧
    sanitize (update_rules [] (.pylist
        [.rule { pattern := some "a", placeholder := some "X", enabled := some false }]))
      (.str "abc") = .str "abc" :=
  ⟨by decide, empty_or_disabled_identity.2 _ (by decide) "abc"⟩

/-- C7 counterexample: a falsy non-string input (Python `None`: falsy, with
`str()` giving `"None"`) is returned unchanged by `sanitize`, so the result
is not a string. -/
theorem falsy_nonstring_unchanged :
    sanitize [] (PyVal.obj false (some "None")) =
      PyVal.obj false (some "None") ∧
    (sanitize [] (PyVal.obj false (some "None"))).isStr = false := by
  decide

/-- C7 amended: for every truthy input value and every compiled rule set the
result of `sanitize` is a string — the rewritten text, the rewritten coerced
textual representation, or the sentinel `"[ERROR: Invalid input]"` when
coercion fails — and `sanitize` never raises; falsy inputs (including falsy
non-strings) are returned unchanged instead. -/
theorem truthy_sanitize_returns_str :
    ∀ (compiled : List (CompiledRegex × String)) (v : PyVal),
      pyNot v = false → (sanitize compiled v).isStr = true := by
  intro compiled v h
  cases v with
  | str s => simp [sanitize, h, PyVal.isStr]
  | obj t os => cases os <;> simp [sanitize, h, PyVal.isStr]

/-- Witness for C7's amended statement at a concrete truthy string. -/
theorem truthy_sanitize_returns_str_witness :
    pyNot (PyVal.str "abc") = false ∧
    (sanitize [] (PyVal.str "abc")).isStr = true :=
  ⟨rfl, truthy_sanitize_returns_str [] (PyVal.str "abc") rfl⟩

/-- C8: the compiled set is a function of the most recent rule list only —
`update_rules` fully replaces it (the previous state is cleared), so calling
it twice, or after any earlier call with a different list, yields exactly
the same sanitize behavior as a single call. -/
theorem compiled_set_from_latest_rules :
    (∀ (old1 old2 : List (CompiledRegex × String)) (rules : RulesArg),
      update_rules old1 rules = update_rules old2 rules) ∧
    (∀ (old : List (CompiledRegex × String)) (rules0 rules : RulesArg)
        (t : PyVal),
      sanitize (update_rules (update_rules old rules0) rules) t =
        sanitize (update_rules old rules) t) :=
  ⟨fun _ _ _ => rfl, fun _ _ _ _ => rfl⟩

/-- C9: every compiled pattern carries the IGNORECASE and MULTILINE flags
unconditionally, and the rule `{pattern: "hello", placeholder: "[HI]"}`
rewrites `"Hello World"` to `"[HI] World"`. -/
theorem flags_always_ignorecase_multiline :
    (∀ (old : List (CompiledRegex × String)) (rules : RulesArg),
      ((update_rules old rules).all fun p => p.1.flags == pyFlags) = true) ∧
    pyFlags = ⟨true, true⟩ ∧
    sanitize (update_rules [] (.pylist
        [.rule { pattern := some "hello", placeholder := some "[HI]" }]))
      (.str "Hello World") = .str "[HI] World" := by
  refine ⟨?_, rfl, by decide⟩
  intro old rules
  cases rules with
  | pytuple items => rfl
  | notSeq => rfl
  | pylist items =>
    rw [List.all_eq_true]
    intro p hp
    rw [show update_rules old (.pylist items) = compileLoop [] items from rfl,
      compileLoop_eq items []] at hp
    simp only [List.nil_append, List.mem_filterMap] at hp
    obtain ⟨i, _, hi⟩ := hp
    simp [compileRule?_flags i p hi]

/-- C10 counterexample: `sanitize` can return the exact string
`"[ERROR: Sanitization failed]"` on a string input — a placeholder writing
that string produces it as ordinary output. -/
theorem sentinel_reachable_as_output :
    sanitize (update_rules [] (.pylist
        [.rule { pattern := some "a", placeholder := some "[ERROR: Sanitization failed]" }]))
      (.str "a") = .str "[ERROR: Sanitization failed]" := by
  decide

/-- C10 amended: the whole-pass failure handler is unreachable for string
inputs — every per-rule substitution is individually guarded and a failed
rule leaves the intermediate text unchanged, so the pass always completes
normally and the sentinel is never produced by the error path (it can still
appear as ordinary rewritten output). -/
theorem whole_pass_handler_unreachable :
    ∀ (compiled : List (CompiledRegex × String)) (s : String),
      runPass compiled s = Except.ok (applyRules compiled s) ∧
      sanitizeStr compiled s = applyRules compiled s :=
  fun compiled s =>
    ⟨runPass_eq_ok compiled s, sanitizeStr_eq_applyRules compiled s⟩

end ClipboardSanitizer
